import Mathlib

/-!
Verification of the credential and session subsystem of
`src/services/auth/app.py` (auth service for Caddy forward_auth).

Modelling conventions, shared by all definitions below:

* Python strings that are split or concatenated character by character
  (passwords, salts, hash records) are modelled as `List Char` (`Str`);
  map keys and other strings that are only compared for equality
  (usernames, tokens, roles) stay `String`.
* `hashlib.pbkdf2_hmac('sha256', password, salt, 100000).hex()` is an
  external cryptographic primitive, modelled as an abstract parameter
  `kdf : Str -> Str -> Str` (password, salt to hex digest).  Facts the
  Python library guarantees (the digest is 64 lowercase hex characters,
  hence contains no colon) and the idealised collision-freeness the spec
  relies on appear as explicit hypotheses where a theorem needs them.
* `secrets.token_hex(16)` / `secrets.token_urlsafe(32)` are random; each
  operation takes the generated value as an explicit argument, with the
  generator's guarantees (32 lowercase hex characters for `token_hex(16)`)
  as hypotheses.
* ISO-8601 timestamps produced by `datetime.now().isoformat()` are
  compared with Python string `>` which, for this fixed format, is
  chronological order; instants are modelled as `Nat`, the comparison
  `expires > now` as `now < expires`, and `timedelta(days=30)` as adding
  the constant `SESSION_DURATION_DAYS` in abstract time units.
* Python dicts are association lists with unique keys, `json` round-trips
  are identities, and each persisted file is carried explicitly in the
  state (`none` = the file does not exist).
* Raised-and-uncaught Python exceptions (`ValueError` from tuple
  unpacking, `KeyError` from dict indexing) are explicit error values.
-/

abbrev Str := List Char

/-- Python `stored.split(c)` for a single-character separator: splits on
every occurrence, keeps empty parts, and always returns at least one part
(`""` splits to `[""]`). -/
def splitCh (c : Char) : List Char → List (List Char)
  | [] => [[]]
  | a :: rest =>
      if a = c then
        [] :: splitCh c rest
      else
        match splitCh c rest with
        | [] => [[a]]
        | h :: t => (a :: h) :: t

/-- The model of app.py line 34: `hash_password(password, salt)` returns
`f"{salt}:{hashed.hex()}"` where `hashed` is the PBKDF2 derivation.  The
`salt=None` case (a fresh `secrets.token_hex(16)`) is modelled by callers
passing the generated salt explicitly. -/
def hash_password (kdf : Str → Str → Str) (password salt : Str) : Str :=
  salt ++ ':' :: kdf password salt

/-- The model of app.py line 40: `verify_password(password, stored)` does
`salt, _ = stored.split(':')` and compares `hash_password(password, salt)`
with `stored`.  The tuple unpacking raises `ValueError` unless the split
yields exactly two parts; the raise is modelled as `Except.error ()`. -/
def verify_password (kdf : Str → Str → Str) (password stored : Str) :
    Except Unit Bool :=
  match splitCh ':' stored with
  | [salt, _] => .ok (decide (hash_password kdf password salt = stored))
  | _ => .error ()

/-- Lowercase hexadecimal digit, the alphabet of `secrets.token_hex` and
of `bytes.hex()` in Python. -/
def isLowerHex (c : Char) : Bool := c.isDigit || ('a' ≤ c && c ≤ 'f')

/-! ### Association lists: the model of Python dicts

Keys are unique in a Python dict; item assignment replaces the value in
place, deletion removes the entry, and iteration order is insertion
order. -/

/-- Python `d[k]` / `k in d`: first binding of `k`, if any. -/
def lookupA {α : Type} (k : String) : List (String × α) → Option α
  | [] => none
  | (k', v) :: rest => if k' = k then some v else lookupA k rest

/-- Python `d[k] = v`: replace the binding in place, or append. -/
def setA {α : Type} (k : String) (v : α) :
    List (String × α) → List (String × α)
  | [] => [(k, v)]
  | (k', v') :: rest =>
      if k' = k then (k, v) :: rest else (k', v') :: setA k v rest

/-- Python `del d[k]`: remove the binding of `k`. -/
def eraseA {α : Type} (k : String) :
    List (String × α) → List (String × α)
  | [] => []
  | (k', v') :: rest => if k' = k then rest else (k', v') :: eraseA k rest

/-! ### Session store (app.py lines 29-84)

The global dict `sessions` together with the persisted `sessions.json`
file; `file = none` models a missing file. -/

structure SessionRecord where
  username : String
  expires : Nat
deriving DecidableEq

abbrev Sessions := List (String × SessionRecord)

structure SessionState where
  sessions : Sessions
  file : Option Sessions
deriving DecidableEq

/-- app.py line 29: `SESSION_DURATION_DAYS = 30`, in abstract time
units. -/
def SESSION_DURATION_DAYS : Nat := 30

/-- app.py line 66: `save_sessions()` dumps the in-memory dict to
`sessions.json`. -/
def save_sessions (st : SessionState) : SessionState :=
  { st with file := some st.sessions }

/-- app.py line 70: `create_session(username)` with the fresh
`secrets.token_urlsafe(32)` value passed in as `token`; stores
`{"username": username, "expires": now + 30 days}` and persists. -/
def create_session (username token : String) (now : Nat)
    (st : SessionState) : String × SessionState :=
  let expires := now + SESSION_DURATION_DAYS
  (token, save_sessions
    { st with sessions := setA token ⟨username, expires⟩ st.sessions })

/-- app.py line 77: `get_session(token)` returns the record if present
and `expires > now`; an expired-but-present record is deleted and the
store persisted; otherwise the state is untouched. -/
def get_session (token : String) (now : Nat) (st : SessionState) :
    Option SessionRecord × SessionState :=
  match lookupA token st.sessions with
  | some session =>
      if now < session.expires then (some session, st)
      else
        (none, save_sessions
          { st with sessions := eraseA token st.sessions })
  | none => (none, st)

/-- app.py line 57: `load_sessions()` replaces the in-memory dict with the
file contents when the file exists, then filters out every record whose
`expires` is not strictly greater than now.  No `save_sessions()` call
occurs here. -/
def load_sessions (now : Nat) (st : SessionState) : SessionState :=
  let loaded := match st.file with
    | some f => f
    | none => st.sessions
  { st with sessions := loaded.filter (fun kv => now < kv.2.expires) }

/-- app.py line 215: `get_current_user` reads the `session` cookie and
resolves it through `get_session`; `cookieToken = none` covers both a
missing cookie and the falsy empty-string token. -/
def get_current_user (cookieToken : Option String) (now : Nat)
    (st : SessionState) : Option String × SessionState :=
  match cookieToken with
  | some token =>
      match get_session token now st with
      | (some session, st2) => (some session.username, st2)
      | (none, st2) => (none, st2)
  | none => (none, st)

/-- The `/verify` response (app.py lines 280-288): 200 plus
`X-Auth-User: user`, or a bare 401. -/
inductive VerifyResponse where
  | authOk (user : String)
  | unauthorized
deriving DecidableEq

/-- app.py lines 280-288: the `GET /verify` branch of `do_GET`, given the
request's `session` cookie; the only state it touches is the session
store, through `get_current_user`. -/
def do_get_verify (cookieToken : Option String) (now : Nat)
    (st : SessionState) : VerifyResponse × SessionState :=
  match get_current_user cookieToken now st with
  | (some user, st2) => (.authOk user, st2)
  | (none, st2) => (.unauthorized, st2)

/-! ### Credential store (app.py lines 44-54 and the admin/account POST
handlers)

Each handler reads `users = load_users()` from `users.json` at request
start and, on success, rewrites the whole file via `save_users(users)`;
the mapping each operation returns below is both the in-memory dict and,
when the operation reached its `save_users` call, the persisted one
(failure branches never call `save_users`, so on failure the persisted
mapping is the unchanged input). -/

structure UserRecord where
  password : Str
  role : String
deriving DecidableEq

abbrev Users := List (String × UserRecord)

/-- app.py line 48: the default admin seeded by `load_users()` when
`users.json` is absent, `{"admin": {"password": hash_password("changeme"),
"role": "admin"}}`, persisted immediately. -/
def seed_users (kdf : Str → Str → Str) (salt : Str) : Users :=
  [("admin", ⟨hash_password kdf ['c', 'h', 'a', 'n', 'g', 'e', 'm', 'e']
      salt, "admin"⟩)]

/-- A role from the enumerated set of the data model. -/
def validRole (r : String) : Bool := r = "admin" || r = "user"

/-- The persisted-user invariant of the data model: non-empty password
hash and a role in the enumerated set. -/
def usersInv (users : Users) : Bool :=
  users.all (fun kv => !kv.2.password.isEmpty && validRole kv.2.role)

inductive AddResult where
  | alreadyExists
  | weakUsername
  | weakPassword
  | added
deriving DecidableEq

/-- app.py lines 368-386: the `POST /admin/users/add` branch after the
admin check, with `role` exactly the submitted form value (the handler
performs no validation of it). -/
def admin_add_user (kdf : Str → Str → Str) (salt : Str) (username : String)
    (password : Str) (role : String) (users : Users) :
    AddResult × Users :=
  if (lookupA username users).isSome then (.alreadyExists, users)
  else if username.length < 3 then (.weakUsername, users)
  else if password.length < 8 then (.weakPassword, users)
  else (.added, setA username ⟨hash_password kdf password salt, role⟩ users)

inductive DeleteResult where
  | selfDeleteForbidden
  | notFound
  | deleted
deriving DecidableEq

/-- app.py lines 388-401: the `POST /admin/users/delete` branch after the
admin check: self-deletion is rejected first, then existence is checked;
only the deletion branch calls `save_users`. -/
def admin_delete_user (requestingUser username : String) (users : Users) :
    DeleteResult × Users :=
  if username = requestingUser then (.selfDeleteForbidden, users)
  else if (lookupA username users).isSome then
    (.deleted, eraseA username users)
  else (.notFound, users)

inductive ChangeResult where
  | keyError
  | verifyError
  | wrongPassword
  | mismatch
  | weakPassword
  | changed
deriving DecidableEq

/-- app.py lines 348-366: the `POST /account` password-change branch for
the logged-in `user`; `users[user]` raises `KeyError` for a dangling
session and `verify_password` can raise, both modelled as error results;
only the final branch rehashes (fresh `salt`) and calls `save_users`. -/
def account_change_password (kdf : Str → Str → Str) (salt : Str)
    (user : String) (current newPw confirmPw : Str) (users : Users) :
    ChangeResult × Users :=
  match lookupA user users with
  | none => (.keyError, users)
  | some record =>
      match verify_password kdf current record.password with
      | .error _ => (.verifyError, users)
      | .ok ok =>
          if !ok then (.wrongPassword, users)
          else if newPw ≠ confirmPw then (.mismatch, users)
          else if newPw.length < 8 then (.weakPassword, users)
          else (.changed,
            setA user ⟨hash_password kdf newPw salt, record.role⟩ users)

/-! ### Login (app.py lines 335-346) -/

/-- Outcome of `POST /login`: success sends a 302 with
`Set-Cookie: session=token` and `Location: /`; failure re-renders the
login form via `send_html` (status 200, no `Set-Cookie`). -/
inductive LoginResponse where
  | redirect (token : String)
  | loginForm
deriving DecidableEq

def LoginResponse.status : LoginResponse → Nat
  | .redirect _ => 302
  | .loginForm => 200

def LoginResponse.setCookie : LoginResponse → Option String
  | .redirect t => some t
  | .loginForm => none

/-- app.py lines 335-346: the `POST /login` branch.  The condition
`username in users and verify_password(...)` short-circuits; the returned
`Nat` counts how many times `verify_password` was invoked.  A raise
inside `verify_password` aborts the request before any response or state
change (`.error ()`). -/
def do_post_login (kdf : Str → Str → Str) (username : String)
    (password : Str) (users : Users) (newToken : String) (now : Nat)
    (st : SessionState) : Except Unit LoginResponse × SessionState × Nat :=
  match lookupA username users with
  | none => (.ok .loginForm, st, 0)
  | some record =>
      match verify_password kdf password record.password with
      | .error _ => (.error (), st, 1)
      | .ok true =>
          let created := create_session username newToken now st
          (.ok (.redirect created.1), created.2, 1)
      | .ok false => (.ok .loginForm, st, 1)

/-! ### Helper lemmas -/

theorem splitCh_no_sep (c : Char) (xs : List Char) (h : c ∉ xs) :
    splitCh c xs = [xs] := by
  induction xs with
  | nil => rfl
  | cons a rest ih =>
      have hac : ¬ a = c := fun hac => h (hac ▸ List.mem_cons_self a rest)
      have hrest : c ∉ rest := fun hm => h (List.mem_cons_of_mem a hm)
      simp [splitCh, hac, ih hrest]

theorem splitCh_append (c : Char) (xs ys : List Char) (h : c ∉ xs) :
    splitCh c (xs ++ c :: ys) = xs :: splitCh c ys := by
  induction xs with
  | nil => simp [splitCh]
  | cons a rest ih =>
      have hac : ¬ a = c := fun hac => h (hac ▸ List.mem_cons_self a rest)
      have hrest : c ∉ rest := fun hm => h (List.mem_cons_of_mem a hm)
      simp only [List.cons_append, splitCh, hac, if_false, List.append_eq,
        ih hrest]

theorem splitCh_two (c : Char) (xs ys : List Char) (hx : c ∉ xs)
    (hy : c ∉ ys) : splitCh c (xs ++ c :: ys) = [xs, ys] := by
  rw [splitCh_append c xs ys hx, splitCh_no_sep c ys hy]

theorem not_mem_of_all_lowerHex (xs : Str)
    (h : ∀ c ∈ xs, isLowerHex c = true) : ':' ∉ xs := fun hm =>
  absurd (h ':' hm) (by decide)

theorem lookupA_setA_self {α : Type} (k : String) (v : α)
    (l : List (String × α)) : lookupA k (setA k v l) = some v := by
  induction l with
  | nil => simp [setA, lookupA]
  | cons kv rest ih =>
      obtain ⟨k', v'⟩ := kv
      by_cases h : k' = k
      · simp [setA, h, lookupA]
      · simp [setA, h, lookupA, ih]

theorem lookupA_eq_none {α : Type} (k : String) (l : List (String × α))
    (h : k ∉ l.map Prod.fst) : lookupA k l = none := by
  induction l with
  | nil => rfl
  | cons kv rest ih =>
      obtain ⟨k', v'⟩ := kv
      simp only [List.map_cons, List.mem_cons] at h
      push_neg at h
      have hk : ¬ k' = k := fun hh => h.1 hh.symm
      simp [lookupA, hk, ih h.2]

theorem lookupA_mem {α : Type} (k : String) (v : α)
    (l : List (String × α)) (h : lookupA k l = some v) : (k, v) ∈ l := by
  induction l with
  | nil => exact absurd h (by simp [lookupA])
  | cons kv rest ih =>
      obtain ⟨k', v'⟩ := kv
      by_cases hk : k' = k
      · rw [lookupA, if_pos hk] at h
        subst hk
        injection h with h
        subst h
        exact List.mem_cons_self _ _
      · rw [lookupA, if_neg hk] at h
        exact List.mem_cons_of_mem _ (ih h)

theorem lookupA_iff_mem {α : Type} (k : String) (v : α)
    (l : List (String × α)) (hnd : (l.map Prod.fst).Nodup) :
    lookupA k l = some v ↔ (k, v) ∈ l := by
  constructor
  · exact lookupA_mem k v l
  · intro hm
    induction l with
    | nil => cases hm
    | cons kv rest ih =>
        obtain ⟨k', v'⟩ := kv
        simp only [List.map_cons, List.nodup_cons] at hnd
        rcases List.mem_cons.mp hm with h | h
        · injection h with h1 h2
          subst h1
          subst h2
          simp [lookupA]
        · have hk : k' ≠ k := by
            intro hh
            subst hh
            exact hnd.1 (List.mem_map.mpr ⟨(k', v), h, rfl⟩)
          rw [lookupA, if_neg hk]
          exact ih hnd.2 h

theorem mem_keys_setA {α : Type} (x k : String) (v : α)
    (l : List (String × α)) (h : x ∈ (setA k v l).map Prod.fst) :
    x = k ∨ x ∈ l.map Prod.fst := by
  induction l with
  | nil => simp [setA] at h; exact Or.inl h
  | cons kv rest ih =>
      obtain ⟨k', v'⟩ := kv
      by_cases hk : k' = k
      · simp only [setA, if_pos hk, List.map_cons, List.mem_cons] at h
        rcases h with h | h
        · exact Or.inl h
        · exact Or.inr (by simp [h])
      · simp only [setA, if_neg hk, List.map_cons, List.mem_cons] at h
        rcases h with h | h
        · exact Or.inr (by simp [h])
        · rcases ih h with h2 | h2
          · exact Or.inl h2
          · exact Or.inr (by simp [h2])

theorem nodupKeys_setA {α : Type} (k : String) (v : α)
    (l : List (String × α)) (hnd : (l.map Prod.fst).Nodup) :
    ((setA k v l).map Prod.fst).Nodup := by
  induction l with
  | nil => simp [setA]
  | cons kv rest ih =>
      obtain ⟨k', v'⟩ := kv
      simp only [List.map_cons, List.nodup_cons] at hnd
      by_cases hk : k' = k
      · subst hk
        have hset : setA k' v ((k', v') :: rest) = (k', v) :: rest := by
          simp [setA]
        rw [hset, List.map_cons, List.nodup_cons]
        exact hnd
      · simp only [setA, if_neg hk, List.map_cons, List.nodup_cons]
        refine ⟨?_, ih hnd.2⟩
        intro hmem
        rcases mem_keys_setA k' k v rest hmem with h | h
        · exact hk h
        · exact hnd.1 h

theorem lookupA_eraseA_self {α : Type} (k : String)
    (l : List (String × α)) (hnd : (l.map Prod.fst).Nodup) :
    lookupA k (eraseA k l) = none := by
  induction l with
  | nil => rfl
  | cons kv rest ih =>
      obtain ⟨k', v'⟩ := kv
      simp only [List.map_cons, List.nodup_cons] at hnd
      by_cases hk : k' = k
      · subst hk
        rw [eraseA, if_pos rfl]
        refine lookupA_eq_none k' rest ?_
        exact hnd.1
      · rw [eraseA, if_neg hk, lookupA, if_neg hk]
        exact ih hnd.2

theorem lookupA_filter {α : Type} (k : String) (v : α)
    (p : String × α → Bool) (l : List (String × α))
    (hnd : (l.map Prod.fst).Nodup) :
    lookupA k (l.filter p) = some v ↔
      (lookupA k l = some v ∧ p (k, v) = true) := by
  have hndf : ((l.filter p).map Prod.fst).Nodup :=
    hnd.sublist (List.Sublist.map Prod.fst (List.filter_sublist l))
  rw [lookupA_iff_mem k v (l.filter p) hndf, List.mem_filter,
    lookupA_iff_mem k v l hnd]

/-! ### Claims about the password hasher -/

/-- C1: hashing a password with a fresh salt and then verifying the same
password succeeds, and verifying a different password against that record
fails.  The salt produced by `secrets.token_hex(16)` and the PBKDF2 hex
digest contain no colon (hypotheses `hs`, `hk1`, `hk2`); the spec's
"verification never accepts a wrong password" is the idealised
collision-freeness of PBKDF2 at the inputs in question (hypothesis
`hinj`). -/
theorem hash_verify_correct (kdf : Str → Str → Str) (salt p1 p2 : Str)
    (hs : ':' ∉ salt) (hk1 : ':' ∉ kdf p1 salt) (hk2 : ':' ∉ kdf p2 salt)
    (hinj : kdf p1 salt = kdf p2 salt → p1 = p2) :
    verify_password kdf p1 (hash_password kdf p1 salt) = .ok true ∧
    (p1 ≠ p2 →
      verify_password kdf p1 (hash_password kdf p2 salt) = .ok false) := by
  constructor
  · unfold verify_password
    rw [show hash_password kdf p1 salt = salt ++ ':' :: kdf p1 salt from rfl,
      splitCh_two ':' salt (kdf p1 salt) hs hk1]
    simp [hash_password]
  · intro hne
    unfold verify_password
    rw [show hash_password kdf p2 salt = salt ++ ':' :: kdf p2 salt from rfl,
      splitCh_two ':' salt (kdf p2 salt) hs hk2]
    have hrec : hash_password kdf p1 salt ≠ salt ++ ':' :: kdf p2 salt := by
      intro h
      rw [show hash_password kdf p1 salt = salt ++ ':' :: kdf p1 salt from rfl]
        at h
      have h2 := List.append_cancel_left h
      have h3 : kdf p1 salt = kdf p2 salt := by
        injection h2
      exact hne (hinj h3)
    simp [hrec]

/-- C1 witness: a concrete key-derivation function, salt and password pair
satisfying the hypotheses of the round-trip theorem. -/
theorem hash_verify_correct_witness :
    verify_password (fun p s => p ++ s) ['a']
      (hash_password (fun p s => p ++ s) ['a'] ['0', '0']) = .ok true ∧
    ((['a'] : Str) ≠ ['b'] →
      verify_password (fun p s => p ++ s) ['a']
        (hash_password (fun p s => p ++ s) ['b'] ['0', '0']) = .ok false) :=
  hash_verify_correct (fun p s => p ++ s) ['0', '0'] ['a'] ['b']
    (by decide) (by decide) (by decide) (by decide)

/-- C4 counterexample: on a stored record containing no colon,
`verify_password` does not return false — the tuple unpacking
`salt, _ = stored.split(':')` raises `ValueError` (modelled `.error ()`),
for instance on the record `"deadbeef"`. -/
theorem verify_malformed_counterexample :
    verify_password (fun p _ => p) ['x']
        ['d', 'e', 'a', 'd', 'b', 'e', 'e', 'f'] = .error () ∧
    verify_password (fun p _ => p) ['x']
        ['d', 'e', 'a', 'd', 'b', 'e', 'e', 'f'] ≠ .ok false :=
  ⟨rfl, fun h => Except.noConfusion h⟩

/-- C4 amended: for every stored record containing no ':', and any
plaintext, `verify_password` raises `ValueError` from the tuple unpacking
(modelled as `.error ()`) instead of returning false; the exception
propagates out of `verify_password` uncaught. -/
theorem verify_malformed_raises (kdf : Str → Str → Str) (p stored : Str)
    (h : ':' ∉ stored) : verify_password kdf p stored = .error () := by
  unfold verify_password
  rw [splitCh_no_sep ':' stored h]

/-- C4 amended witness: concrete malformed record. -/
theorem verify_malformed_raises_witness :
    verify_password (fun p _ => p) ['p', 'w'] ['a', 'b', 'c'] = .error () :=
  verify_malformed_raises (fun p _ => p) ['p', 'w'] ['a', 'b', 'c']
    (by decide)

/-- C9: a record produced by `hash_password` with a `token_hex(16)` salt
(32 lowercase hex characters, hypotheses `hsalt`/`hslen`) and the PBKDF2
hex digest (64 lowercase hex characters, hypotheses `hk`/`hklen`) contains
exactly one ':', splits into the nonempty all-hex salt and digest, and
`verify_password` on any plaintext parses it successfully. -/
theorem hash_record_format (kdf : Str → Str → Str) (p salt : Str)
    (hsalt : ∀ c ∈ salt, isLowerHex c = true) (hslen : salt.length = 32)
    (hk : ∀ c ∈ kdf p salt, isLowerHex c = true)
    (hklen : (kdf p salt).length = 64) :
    (hash_password kdf p salt).count ':' = 1 ∧
    splitCh ':' (hash_password kdf p salt) = [salt, kdf p salt] ∧
    (salt ≠ [] ∧ (kdf p salt) ≠ []) ∧
    (∀ p', ∃ b,
      verify_password kdf p' (hash_password kdf p salt) = .ok b) := by
  have hs : ':' ∉ salt := not_mem_of_all_lowerHex salt hsalt
  have hck : ':' ∉ kdf p salt := not_mem_of_all_lowerHex (kdf p salt) hk
  refine ⟨?_, ?_, ⟨?_, ?_⟩, ?_⟩
  · have h1 : salt.count ':' = 0 := List.count_eq_zero.mpr hs
    have h2 : (kdf p salt).count ':' = 0 := List.count_eq_zero.mpr hck
    simp [hash_password, List.count_append, List.count_cons, h1, h2]
  · exact splitCh_two ':' salt (kdf p salt) hs hck
  · intro hnil; rw [hnil] at hslen; simp at hslen
  · intro hnil; rw [hnil] at hklen; simp at hklen
  · intro p'
    refine ⟨decide (hash_password kdf p' salt = hash_password kdf p salt),
      ?_⟩
    unfold verify_password
    rw [show hash_password kdf p salt = salt ++ ':' :: kdf p salt from rfl,
      splitCh_two ':' salt (kdf p salt) hs hck]

/-- C9 witness: concrete 32-character hex salt and a key-derivation
function with a 64-character hex output. -/
theorem hash_record_format_witness :
    splitCh ':' (hash_password (fun _ _ => List.replicate 64 'a')
        ['p', 'w'] (List.replicate 32 '0')) =
      [List.replicate 32 '0', List.replicate 64 'a'] ∧
    ∃ b, verify_password (fun _ _ => List.replicate 64 'a') ['x']
      (hash_password (fun _ _ => List.replicate 64 'a') ['p', 'w']
        (List.replicate 32 '0')) = .ok b := by
  have h := hash_record_format (fun _ _ => List.replicate 64 'a')
    ['p', 'w'] (List.replicate 32 '0')
    (by decide) (by decide) (by decide) (by decide)
  exact ⟨h.2.1, h.2.2.2 ['x']⟩

/-! ### Claims about the session store -/

/-- C2: a session created by `create_session(u)` is retrievable via
`get_session(token)` at every instant strictly before its expiry,
returning the record carrying `u`; at or after the expiry instant
`get_session` returns nothing, deletes the record, persists the store,
and a later `get_session` with the same token again returns nothing and
leaves the state untouched (idempotent expiry). -/
theorem session_lifecycle (u token : String) (now t1 t2 t3 : Nat)
    (st : SessionState) (hnd : (st.sessions.map Prod.fst).Nodup)
    (h1 : t1 < now + SESSION_DURATION_DAYS)
    (h2 : now + SESSION_DURATION_DAYS ≤ t2) :
    get_session token t1 (create_session u token now st).2 =
      (some ⟨u, now + SESSION_DURATION_DAYS⟩,
       (create_session u token now st).2) ∧
    (get_session token t2 (create_session u token now st).2).1 = none ∧
    lookupA token
        ((get_session token t2 (create_session u token now st).2).2).sessions
      = none ∧
    ((get_session token t2 (create_session u token now st).2).2).file =
      some ((get_session token t2
        (create_session u token now st).2).2).sessions ∧
    get_session token t3
        (get_session token t2 (create_session u token now st).2).2 =
      (none, (get_session token t2 (create_session u token now st).2).2) := by
  have hsess : ((create_session u token now st).2).sessions =
      setA token ⟨u, now + SESSION_DURATION_DAYS⟩ st.sessions := rfl
  have hlook : lookupA token ((create_session u token now st).2).sessions =
      some ⟨u, now + SESSION_DURATION_DAYS⟩ := by
    rw [hsess]
    exact lookupA_setA_self token ⟨u, now + SESSION_DURATION_DAYS⟩
      st.sessions
  have hget1 : get_session token t1 (create_session u token now st).2 =
      (some ⟨u, now + SESSION_DURATION_DAYS⟩,
       (create_session u token now st).2) := by
    unfold get_session
    rw [hlook]
    simp [h1]
  have hget2 : get_session token t2 (create_session u token now st).2 =
      (none, save_sessions { (create_session u token now st).2 with
        sessions :=
          eraseA token ((create_session u token now st).2).sessions }) := by
    unfold get_session
    rw [hlook]
    simp [Nat.not_lt.mpr h2]
  have hnd1 :
      (((create_session u token now st).2).sessions.map Prod.fst).Nodup := by
    rw [hsess]
    exact nodupKeys_setA token ⟨u, now + SESSION_DURATION_DAYS⟩
      st.sessions hnd
  have hlook2 : lookupA token
      (eraseA token ((create_session u token now st).2).sessions) = none :=
    lookupA_eraseA_self token _ hnd1
  refine ⟨hget1, ?_, ?_, ?_, ?_⟩
  · rw [hget2]
  · rw [hget2]
    exact hlook2
  · rw [hget2]
    rfl
  · rw [hget2]
    unfold get_session
    simp only [save_sessions]
    rw [hlook2]

/-- C2 witness: create at time 0, read back at time 0, expire at time 30,
read again at time 31. -/
theorem session_lifecycle_witness :
    (get_session "t" 0 (create_session "u" "t" 0 ⟨[], none⟩).2).1 =
      some ⟨"u", 0 + SESSION_DURATION_DAYS⟩ ∧
    (get_session "t" 30 (create_session "u" "t" 0 ⟨[], none⟩).2).1 =
      none ∧
    (get_session "t" 31 (get_session "t" 30
        (create_session "u" "t" 0 ⟨[], none⟩).2).2).1 = none := by
  have h := session_lifecycle "u" "t" 0 0 30 31 ⟨[], none⟩
    (by decide) (by decide) (by decide)
  refine ⟨?_, h.2.1, ?_⟩
  · rw [h.1]
  · rw [h.2.2.2.2]

/-- C3 counterexample: a `/verify` request whose cookie carries an
expired-but-present token does mutate the session store — the record is
deleted and the file rewritten, so neither the mapping nor the persisted
file matches its pre-request state. -/
theorem verify_mutates_counterexample :
    (do_get_verify (some "t") 10
        ⟨[("t", ⟨"u", 5⟩)], some [("t", ⟨"u", 5⟩)]⟩).2 =
      ⟨[], some []⟩ ∧
    (do_get_verify (some "t") 10
        ⟨[("t", ⟨"u", 5⟩)], some [("t", ⟨"u", 5⟩)]⟩).2 ≠
      ⟨[("t", ⟨"u", 5⟩)], some [("t", ⟨"u", 5⟩)]⟩ := by
  decide

/-- C3 amended: handling `GET /verify` leaves the session mapping and the
persisted file unchanged when the request has no cookie, an unknown
token, or a valid token; but for an expired-but-present token the lazy
eviction inside `get_session` deletes the record and persists the store,
so `/verify` is not side-effect-free in that case. -/
theorem verify_effects (t : String) (now : Nat) (st : SessionState) :
    do_get_verify none now st = (.unauthorized, st) ∧
    (lookupA t st.sessions = none →
      do_get_verify (some t) now st = (.unauthorized, st)) ∧
    (∀ r, lookupA t st.sessions = some r → now < r.expires →
      do_get_verify (some t) now st = (.authOk r.username, st)) ∧
    (∀ r, lookupA t st.sessions = some r → r.expires ≤ now →
      do_get_verify (some t) now st =
        (.unauthorized,
         ⟨eraseA t st.sessions, some (eraseA t st.sessions)⟩)) := by
  refine ⟨rfl, ?_, ?_, ?_⟩
  · intro h
    have hgs : get_session t now st = (none, st) := by
      unfold get_session
      rw [h]
    simp [do_get_verify, get_current_user, hgs]
  · intro r h hlt
    have hgs : get_session t now st = (some r, st) := by
      unfold get_session
      rw [h]
      simp [hlt]
    simp [do_get_verify, get_current_user, hgs]
  · intro r h hle
    have hgs : get_session t now st =
        (none, ⟨eraseA t st.sessions, some (eraseA t st.sessions)⟩) := by
      unfold get_session
      rw [h]
      simp [Nat.not_lt.mpr hle, save_sessions]
    simp [do_get_verify, get_current_user, hgs]

/-- C3 amended witness: covers the no-cookie, unknown-token, valid-token
and expired-token cases on concrete states. -/
theorem verify_effects_witness :
    do_get_verify none 10 (⟨[("t", ⟨"u", 20⟩)], none⟩ : SessionState) =
      (.unauthorized, ⟨[("t", ⟨"u", 20⟩)], none⟩) ∧
    do_get_verify (some "s") 10
        (⟨[("t", ⟨"u", 20⟩)], none⟩ : SessionState) =
      (.unauthorized, ⟨[("t", ⟨"u", 20⟩)], none⟩) ∧
    do_get_verify (some "t") 10
        (⟨[("t", ⟨"u", 20⟩)], none⟩ : SessionState) =
      (.authOk "u", ⟨[("t", ⟨"u", 20⟩)], none⟩) ∧
    do_get_verify (some "t") 30
        (⟨[("t", ⟨"u", 20⟩)], none⟩ : SessionState) =
      (.unauthorized,
       ⟨eraseA "t" [("t", ⟨"u", 20⟩)],
        some (eraseA "t" [("t", ⟨"u", 20⟩)])⟩) := by
  have h10 := verify_effects "t" 10 ⟨[("t", ⟨"u", 20⟩)], none⟩
  have h30 := verify_effects "t" 30 ⟨[("t", ⟨"u", 20⟩)], none⟩
  have hs := verify_effects "s" 10 ⟨[("t", ⟨"u", 20⟩)], none⟩
  exact ⟨h10.1, hs.2.1 (by decide),
    h10.2.2.1 ⟨"u", 20⟩ (by decide) (by decide),
    h30.2.2.2 ⟨"u", 20⟩ (by decide) (by decide)⟩

/-- C5 counterexample: `load_sessions` at time 10 over a file holding one
record expired at 5 drops the record from the in-memory mapping but never
persists the swept mapping — the file still holds the expired record. -/
theorem load_sessions_no_persist_counterexample :
    (load_sessions 10 ⟨[], some [("t", ⟨"u", 5⟩)]⟩).sessions = [] ∧
    (load_sessions 10 ⟨[], some [("t", ⟨"u", 5⟩)]⟩).file =
      some [("t", ⟨"u", 5⟩)] ∧
    (load_sessions 10 ⟨[], some [("t", ⟨"u", 5⟩)]⟩).file ≠
      some (load_sessions 10 ⟨[], some [("t", ⟨"u", 5⟩)]⟩).sessions := by
  decide

/-- C5 amended: `load_sessions` reads the persisted sessions and keeps in
the in-memory mapping exactly the records whose expiry is strictly
greater than now, but performs no write: the sessions file is unchanged
even when records were dropped. -/
theorem load_sessions_sweeps (now : Nat) (f : Sessions) (st : SessionState)
    (hf : st.file = some f) (hnd : (f.map Prod.fst).Nodup) :
    (∀ t r, lookupA t (load_sessions now st).sessions = some r ↔
      (lookupA t f = some r ∧ now < r.expires)) ∧
    (load_sessions now st).file = st.file := by
  constructor
  · intro t r
    have hsess : (load_sessions now st).sessions =
        f.filter (fun kv => now < kv.2.expires) := by
      unfold load_sessions
      rw [hf]
    rw [hsess, lookupA_filter t r _ f hnd]
    simp
  · rfl

/-- C5 amended witness: one live and one expired record in the file. -/
theorem load_sessions_sweeps_witness :
    (lookupA "a"
        (load_sessions 10
          ⟨[], some [("a", ⟨"u", 20⟩), ("b", ⟨"v", 5⟩)]⟩).sessions =
      some ⟨"u", 20⟩ ↔
      (lookupA "a" ([("a", ⟨"u", 20⟩), ("b", ⟨"v", 5⟩)] : Sessions) =
        some ⟨"u", 20⟩ ∧ 10 < 20)) ∧
    (load_sessions 10
        ⟨[], some [("a", ⟨"u", 20⟩), ("b", ⟨"v", 5⟩)]⟩).file =
      some [("a", ⟨"u", 20⟩), ("b", ⟨"v", 5⟩)] := by
  have h := load_sessions_sweeps 10 [("a", ⟨"u", 20⟩), ("b", ⟨"v", 5⟩)]
    ⟨[], some [("a", ⟨"u", 20⟩), ("b", ⟨"v", 5⟩)]⟩ rfl (by decide)
  exact ⟨h.1 "a" ⟨"u", 20⟩, h.2⟩

/-- C6 counterexample: a live session for username "ghost", absent from
the users mapping, still authenticates: `/verify` answers 200 with
identity "ghost" rather than the anonymous 401 outcome. -/
theorem dangling_session_counterexample :
    lookupA "ghost" ([] : Users) = none ∧
    (do_get_verify (some "t") 0
        ⟨[("t", ⟨"ghost", 100⟩)], some [("t", ⟨"ghost", 100⟩)]⟩).1 =
      .authOk "ghost" ∧
    (do_get_verify (some "t") 0
        ⟨[("t", ⟨"ghost", 100⟩)], some [("t", ⟨"ghost", 100⟩)]⟩).1 ≠
      .unauthorized := by
  decide

/-- C6 amended: request resolution never consults the credential store:
for any users mapping and a live session record, `/verify` authenticates
as the session's username even when that username is absent from the
users mapping (sessions are not revoked by user deletion). -/
theorem dangling_session_authenticates (users : Users) (t : String)
    (r : SessionRecord) (now : Nat) (st : SessionState)
    (hl : lookupA t st.sessions = some r) (hexp : now < r.expires)
    (_hdangling : lookupA r.username users = none) :
    (do_get_verify (some t) now st).1 = .authOk r.username := by
  have hgs : get_session t now st = (some r, st) := by
    unfold get_session
    rw [hl]
    simp [hexp]
  simp [do_get_verify, get_current_user, hgs]

/-- C6 amended witness: concrete dangling session. -/
theorem dangling_session_authenticates_witness :
    (do_get_verify (some "t") 0
        ⟨[("t", ⟨"gone", 100⟩)], none⟩).1 = .authOk "gone" :=
  dangling_session_authenticates [] "t" ⟨"gone", 100⟩ 0
    ⟨[("t", ⟨"gone", 100⟩)], none⟩ (by decide) (by decide) (by decide)

/-! ### Claims about the credential store -/

theorem all_setA {α : Type} (p : String × α → Bool) (k : String) (v : α)
    (l : List (String × α)) (hl : l.all p = true) (hv : p (k, v) = true) :
    (setA k v l).all p = true := by
  induction l with
  | nil => simp [setA, hv]
  | cons kv rest ih =>
      obtain ⟨k', v'⟩ := kv
      simp only [List.all_cons, Bool.and_eq_true] at hl
      by_cases hk : k' = k
      · simp [setA, hk, hv, hl.2]
      · simp [setA, hk, hl.1, ih hl.2]

theorem all_eraseA {α : Type} (p : String × α → Bool) (k : String)
    (l : List (String × α)) (hl : l.all p = true) :
    (eraseA k l).all p = true := by
  induction l with
  | nil => simp [eraseA]
  | cons kv rest ih =>
      obtain ⟨k', v'⟩ := kv
      simp only [List.all_cons, Bool.and_eq_true] at hl
      by_cases hk : k' = k
      · simp [eraseA, hk, hl.2]
      · simp [eraseA, hk, hl.1, ih hl.2]

theorem all_of_lookupA {α : Type} (p : String × α → Bool) (k : String)
    (v : α) (l : List (String × α)) (hl : l.all p = true)
    (h : lookupA k l = some v) : p (k, v) = true :=
  List.all_eq_true.mp hl (k, v) (lookupA_mem k v l h)

theorem hash_password_not_empty (kdf : Str → Str → Str) (p salt : Str) :
    (hash_password kdf p salt).isEmpty = false := by
  cases salt <;> rfl

/-- C7 counterexample: starting from a mapping satisfying the invariant,
`POST /admin/users/add` with the crafted form value `role=root` succeeds
and persists a record whose role is outside the enumerated set, so the
invariant is not preserved by every write. -/
theorem role_invariant_counterexample :
    usersInv [("admin",
      ⟨hash_password (fun p _ => p) ['p', 'w'] ['0', '0'], "admin"⟩)] =
      true ∧
    (admin_add_user (fun p _ => p) ['0', '0'] "bob"
        ['p', 'a', 's', 's', 'w', 'o', 'r', 'd'] "root"
        [("admin", ⟨hash_password (fun p _ => p) ['p', 'w'] ['0', '0'],
          "admin"⟩)]).1 = .added ∧
    usersInv (admin_add_user (fun p _ => p) ['0', '0'] "bob"
        ['p', 'a', 's', 's', 'w', 'o', 'r', 'd'] "root"
        [("admin", ⟨hash_password (fun p _ => p) ['p', 'w'] ['0', '0'],
          "admin"⟩)]).2 = false := by
  decide

/-- C7 amended: seeding establishes the invariant, and password change
and user deletion preserve it; every record written by `admin_add_user`
has a non-empty password hash, but the handler stores the submitted role
string unvalidated, so the role part of the invariant is preserved only
when the submitted role lies in the enumerated set. -/
theorem users_invariant (kdf : Str → Str → Str) (salt : Str)
    (users : Users) (u ru username : String)
    (current newPw confirmPw password : Str) (role : String)
    (hinv : usersInv users = true) :
    usersInv (seed_users kdf salt) = true ∧
    usersInv (account_change_password kdf salt u current newPw confirmPw
      users).2 = true ∧
    usersInv (admin_delete_user ru username users).2 = true ∧
    (validRole role = true →
      usersInv (admin_add_user kdf salt username password role users).2 =
        true) ∧
    (admin_add_user kdf salt username password role users).2.all
      (fun kv => !kv.2.password.isEmpty) = true := by
  refine ⟨?_, ?_, ?_, ?_, ?_⟩
  · simp [usersInv, seed_users, validRole, hash_password_not_empty]
  · unfold account_change_password
    split
    · exact hinv
    · rename_i record hlk
      split
      · exact hinv
      · split
        · exact hinv
        · split
          · exact hinv
          · split
            · exact hinv
            · have hinv2 : users.all
                  (fun kv => !kv.2.password.isEmpty && validRole kv.2.role)
                  = true := hinv
              have hall := all_of_lookupA _ u record users hinv2 hlk
              simp only [Bool.and_eq_true] at hall
              refine all_setA _ u _ users hinv2 ?_
              simp [hash_password_not_empty, hall.2]
  · unfold admin_delete_user
    split
    · exact hinv
    · split
      · exact all_eraseA _ username users hinv
      · exact hinv
  · intro hrole
    unfold admin_add_user
    split
    · exact hinv
    · split
      · exact hinv
      · split
        · exact hinv
        · refine all_setA _ username _ users hinv ?_
          simp [hash_password_not_empty, hrole]
  · have husers : users.all (fun kv => !kv.2.password.isEmpty) = true := by
      rw [List.all_eq_true]
      intro x hx
      have hx2 := List.all_eq_true.mp hinv x hx
      simp only [Bool.and_eq_true] at hx2
      exact hx2.1
    unfold admin_add_user
    split
    · exact husers
    · split
      · exact husers
      · split
        · exact husers
        · refine all_setA _ username _ users husers ?_
          simp [hash_password_not_empty]

/-- C7 amended witness: concrete seed, add with a valid role. -/
theorem users_invariant_witness :
    usersInv (seed_users (fun p _ => p) ['0', '0']) = true ∧
    usersInv (admin_add_user (fun p _ => p) ['0', '0'] "bob"
        ['p', 'a', 's', 's', 'w', 'o', 'r', 'd'] "user"
        [("admin", ⟨['a'], "admin"⟩)]).2 = true := by
  have h := users_invariant (fun p _ => p) ['0', '0']
    [("admin", ⟨['a'], "admin"⟩)] "admin" "admin" "bob"
    ['x'] ['x'] ['x'] ['p', 'a', 's', 's', 'w', 'o', 'r', 'd'] "user"
    (by decide)
  exact ⟨h.1, h.2.2.2.1 (by decide)⟩

/-- C8: `POST /admin/users/delete` rejects self-deletion first (with no
existence check, so also when the requester is the only admin or even
absent), reports not-found for an absent other user, and otherwise
removes the user and persists; the returned mapping (both in-memory and
persisted) is unchanged on every failure. -/
theorem delete_user_spec (username requestingUser : String)
    (users : Users) :
    (username = requestingUser →
      admin_delete_user requestingUser username users =
        (.selfDeleteForbidden, users)) ∧
    (username ≠ requestingUser → lookupA username users = none →
      admin_delete_user requestingUser username users =
        (.notFound, users)) ∧
    (username ≠ requestingUser → ∀ v, lookupA username users = some v →
      admin_delete_user requestingUser username users =
        (.deleted, eraseA username users)) := by
  refine ⟨?_, ?_, ?_⟩
  · intro h
    simp [admin_delete_user, h]
  · intro h hn
    simp [admin_delete_user, h, hn]
  · intro h v hv
    simp [admin_delete_user, h, hv]

/-- C8 witness: self-delete of the only admin, delete of an absent user,
and a successful delete. -/
theorem delete_user_spec_witness :
    admin_delete_user "a" "a" ([("a", ⟨['x'], "admin"⟩)] : Users) =
      (.selfDeleteForbidden, [("a", ⟨['x'], "admin"⟩)]) ∧
    admin_delete_user "a" "c" ([("a", ⟨['x'], "admin"⟩)] : Users) =
      (.notFound, [("a", ⟨['x'], "admin"⟩)]) ∧
    admin_delete_user "a" "b"
        ([("a", ⟨['x'], "admin"⟩), ("b", ⟨['y'], "user"⟩)] : Users) =
      (.deleted,
       eraseA "b" [("a", ⟨['x'], "admin"⟩), ("b", ⟨['y'], "user"⟩)]) := by
  refine ⟨?_, ?_, ?_⟩
  · exact (delete_user_spec "a" "a" _).1 rfl
  · exact (delete_user_spec "c" "a" _).2.1 (by decide) (by decide)
  · exact (delete_user_spec "b" "a" _).2.2 (by decide) ⟨['y'], "user"⟩
      (by decide)

/-- C10: a `POST /login` whose username is absent, or whose password
verification returns false, fails atomically: the session state
(in-memory mapping and persisted file) is unchanged, the response is the
login form with status 200 and no `Set-Cookie`, and when the username is
absent the short-circuit `and` never invokes `verify_password` (call
count 0). -/
theorem login_failure_atomic (kdf : Str → Str → Str) (username : String)
    (password : Str) (users : Users) (newToken : String) (now : Nat)
    (st : SessionState) :
    (lookupA username users = none →
      do_post_login kdf username password users newToken now st =
        (.ok .loginForm, st, 0)) ∧
    (∀ record, lookupA username users = some record →
      verify_password kdf password record.password = .ok false →
      do_post_login kdf username password users newToken now st =
        (.ok .loginForm, st, 1)) ∧
    LoginResponse.status .loginForm = 200 ∧
    LoginResponse.setCookie .loginForm = none := by
  refine ⟨?_, ?_, rfl, rfl⟩
  · intro h
    simp [do_post_login, h]
  · intro record h hv
    simp [do_post_login, h, hv]

/-- C10 witness: login with an unknown username, and with a known
username but wrong password. -/
theorem login_failure_atomic_witness :
    do_post_login (fun p _ => p) "nobody" ['x'] ([] : Users) "tok" 0
      ⟨[], none⟩ = (.ok .loginForm, ⟨[], none⟩, 0) ∧
    do_post_login (fun p _ => p) "admin" ['x']
        [("admin", ⟨hash_password (fun p _ => p) ['y'] ['0'], "admin"⟩)]
        "tok" 0 ⟨[], none⟩ = (.ok .loginForm, ⟨[], none⟩, 1) := by
  have h1 := login_failure_atomic (fun p _ => p) "nobody" ['x'] [] "tok"
    0 ⟨[], none⟩
  have h2 := login_failure_atomic (fun p _ => p) "admin" ['x']
    [("admin", ⟨hash_password (fun p _ => p) ['y'] ['0'], "admin"⟩)]
    "tok" 0 ⟨[], none⟩
  exact ⟨h1.1 (by decide),
    h2.2.1 ⟨hash_password (fun p _ => p) ['y'] ['0'], "admin"⟩
      (by decide) rfl⟩
